import Mathlib

/-!
# Verification of the raylab core against its specification

Shallow embedding of the raylab repository's core components:

* `raylab/losses/paml.py` — the `SPAML` decision-aware model loss.
  Autodifferentiation is embedded with forward-mode dual numbers: every
  scalar in the computation graph carries its value together with its
  gradient with respect to (a) the components of the sampled current
  action of the same batch element, (b) one policy-parameter direction,
  and (c) one model-parameter direction.  Neural-network modules are
  opaque differentiable functions: a value map together with its partial
  derivatives, applied to dual numbers through the chain rule — exactly
  the contract an autodiff library guarantees for a differentiable module.
* `raylab/algorithms/naf/naf.py`, `raylab/algorithms/svg/svg_one.py`,
  `raylab/algorithms/svg/svg_inf.py`, `raylab/agents/svg/svg_inf.py`,
  `raylab/algorithms/acktr/acktr.py` — trainer loops, embedded as event
  traces, and their configuration validators.

Machine reals are embedded as `ℚ` (the claims under study are exact
dataflow and ordering properties, not rounding properties).
-/

/-- Python-level failures surfaced by the embedded code. -/
inductive PyErr where
  /-- Failure of a Python `assert` statement, with its message. -/
  | assertionError (msg : String)
  /-- The spec's name for the failure of the `assert self.initialized`
  guard in `SPAML.__call__` (the loss was invoked before reward and
  termination functions were attached). -/
  | uninitializedEnvironmentError (msg : String)
  /-- Referencing a local variable that no branch assigned
  (Python `UnboundLocalError`), with the variable's name. -/
  | unboundLocalError (name : String)
  deriving DecidableEq, Repr

/-- A dual number for forward-mode differentiation: a value together with
its gradient with respect to the `A` components of the current sampled
action of the same batch element (`dAct`), with respect to one
policy-parameter direction (`dPol`), and with respect to one
model-parameter direction (`dMod`). -/
structure D (A : ℕ) where
  val : ℚ
  dAct : Fin A → ℚ
  dPol : ℚ
  dMod : ℚ
  deriving DecidableEq

namespace D

variable {A : ℕ}

/-- A constant (no gradient history). -/
def const (q : ℚ) : D A := ⟨q, fun _ => 0, 0, 0⟩

/-- A leaf variable: component `k` of the current action after
`action.requires_grad_(True)` in `SPAML.generate_action`. -/
def actLeaf (q : ℚ) (k : Fin A) : D A :=
  ⟨q, fun j => if j = k then 1 else 0, 0, 0⟩

/-- `Tensor.detach`: same value, no gradient. -/
def detach (x : D A) : D A := const x.val

def add (x y : D A) : D A :=
  ⟨x.val + y.val, fun k => x.dAct k + y.dAct k, x.dPol + y.dPol, x.dMod + y.dMod⟩

def sub (x y : D A) : D A :=
  ⟨x.val - y.val, fun k => x.dAct k - y.dAct k, x.dPol - y.dPol, x.dMod - y.dMod⟩

/-- Product with the product rule. -/
def mul (x y : D A) : D A :=
  ⟨x.val * y.val,
   fun k => x.dAct k * y.val + x.val * y.dAct k,
   x.dPol * y.val + x.val * y.dPol,
   x.dMod * y.val + x.val * y.dMod⟩

/-- Multiplication by a scalar constant (e.g. `gamma * next_qval`). -/
def smul (c : ℚ) (x : D A) : D A :=
  ⟨c * x.val, fun k => c * x.dAct k, c * x.dPol, c * x.dMod⟩

/-- `torch.where(cond, a, b)` on scalars: the selected branch passes both
its value and its gradients. -/
def tWhere (cond : Bool) (x y : D A) : D A := if cond then x else y

/-- `torch.min` of two scalars: the smaller value passes through with its
gradients (ties resolved to the first argument). -/
def tMin (x y : D A) : D A := if x.val ≤ y.val then x else y

end D

/-- Dot product of two rational lists (truncating at the shorter one). -/
def dotQ : List ℚ → List ℚ → ℚ
  | [], _ => 0
  | _, [] => 0
  | a :: as_, b :: bs => a * b + dotQ as_ bs

theorem dotQ_zero_right (l : List ℚ) (r : List ℚ) (h : ∀ x ∈ r, x = 0) :
    dotQ l r = 0 := by
  induction l generalizing r with
  | nil => simp [dotQ]
  | cons a as_ ih =>
    cases r with
    | nil => simp [dotQ]
    | cons b bs =>
      have hb : b = 0 := h b (by simp)
      have hbs : ∀ x ∈ bs, x = 0 := fun x hx => h x (by simp [hx])
      simp [dotQ, hb, ih bs hbs]

/-- An opaque differentiable scalar module: a value map on rational input
vectors together with its vector of partial derivatives.  Applying it to
dual numbers uses the chain rule, which is the contract autodiff gives
for any differentiable network. -/
structure SmoothFn where
  f : List ℚ → ℚ
  df : List ℚ → List ℚ

namespace SmoothFn

variable {A : ℕ}

/-- Chain-rule application to dual-number inputs. -/
def applyD (F : SmoothFn) (xs : List (D A)) : D A :=
  let vs := xs.map D.val
  let ds := F.df vs
  { val := F.f vs
    dAct := fun k => dotQ ds (xs.map (fun x => x.dAct k))
    dPol := dotQ ds (xs.map D.dPol)
    dMod := dotQ ds (xs.map D.dMod) }

/-- The chain rule cannot create a policy-parameter gradient out of inputs
that have none. -/
theorem applyD_dPol_zero (F : SmoothFn) (xs : List (D A))
    (h : ∀ x ∈ xs, x.dPol = 0) : (F.applyD xs).dPol = 0 := by
  unfold applyD
  exact dotQ_zero_right _ _ (by
    intro x hx
    rcases List.mem_map.mp hx with ⟨d, hd, rfl⟩
    exact h d hd)

end SmoothFn

/-! ## Opaque network modules

The stochastic model ensemble, the stochastic policy and the critics are
opaque differentiable modules passed to `SPAML.__init__`.  Stochastic
draws are embedded with an explicit noise input (a constant leaf in the
autodiff graph, exactly as sampling noise is in torch):
`sample` is `rsample` with the drawn value detached, which is torch's
relation between a plain and a reparameterized sample. -/

/-- A stochastic transition model of the ensemble (`raylab`'s
`StochasticModel` interface used by `SPAML.transition`): a differentiable
draw map (one `SmoothFn` per next-observation component, inputs
`[param, noise] ++ obs ++ action`) and a differentiable conditional
log-density (inputs `[param] ++ obs ++ action ++ next_obs`). -/
structure ModelNet (A : ℕ) where
  theta : ℚ
  drawF : List SmoothFn
  logpF : SmoothFn

namespace ModelNet

variable {A : ℕ}

/-- The model parameter as an autodiff leaf (model parameters always
require grad during the model loss). -/
def paramD (m : ModelNet A) : D A := ⟨m.theta, fun _ => 0, 0, 1⟩

/-- The reparameterized draw: gradients flow into parameters, observation
and action through the chain rule. -/
def draw (m : ModelNet A) (obs act : List (D A)) (noise : ℚ) : List (D A) :=
  m.drawF.map (fun F => F.applyD (m.paramD :: D.const noise :: (obs ++ act)))

/-- Differentiable log-density of `nxt` under the model at `(obs, act)`. -/
def log_prob (m : ModelNet A) (obs act nxt : List (D A)) : D A :=
  m.logpF.applyD (m.paramD :: (obs ++ act ++ nxt))

/-- `m.rsample(obs, act)`: reparameterized sample and its log-density. -/
def rsample (m : ModelNet A) (obs act : List (D A)) (noise : ℚ) :
    List (D A) × D A :=
  let nxt := m.draw obs act noise
  (nxt, m.log_prob obs act nxt)

/-- `m.sample(obs, act)`: plain sample — the drawn next state is detached
(no gradient path through the sampling operation), its log-density is
still differentiable in parameters, observation and action. -/
def sample (m : ModelNet A) (obs act : List (D A)) (noise : ℚ) :
    List (D A) × D A :=
  let nxt := (m.draw obs act noise).map D.detach
  (nxt, m.log_prob obs act nxt)

end ModelNet

/-- The stochastic policy (`raylab`'s stochastic actor used by `SPAML`):
a differentiable draw map (one `SmoothFn` per action component, inputs
`[param, noise] ++ obs`) and a differentiable log-density (inputs
`[param] ++ obs ++ action`).  `requires_grad` of the policy parameters is
explicit: when disabled the parameter enters the graph as a constant. -/
structure PolicyNet (A : ℕ) where
  theta : ℚ
  drawF : List SmoothFn
  logpF : SmoothFn

namespace PolicyNet

variable {A : ℕ}

/-- The policy parameter as seen by autodiff: a leaf when
`requires_grad` is enabled, a constant when it is disabled. -/
def paramD (p : PolicyNet A) (requiresGrad : Bool) : D A :=
  ⟨p.theta, fun _ => 0, if requiresGrad then 1 else 0, 0⟩

/-- `policy.rsample(obs)` under a given `requires_grad` flag of the
policy parameters: reparameterized action and its log-density. -/
def rsample (p : PolicyNet A) (requiresGrad : Bool) (obs : List (D A))
    (noise : ℚ) : List (D A) × D A :=
  let act := p.drawF.map
    (fun F => F.applyD (p.paramD requiresGrad :: D.const noise :: obs))
  (act, p.logpF.applyD (p.paramD requiresGrad :: (obs ++ act)))

end PolicyNet

/-- An action-value estimator (critic): a differentiable map with inputs
`obs ++ action`. -/
structure CriticNet (A : ℕ) where
  q : SmoothFn

/-- Modelled from the spec: `clipped_action_value`
(`raylab/losses/utils.py`, absent from `src/`) — each value is the
minimum among the critic predictions at `(obs, action)`. -/
def clipped_action_value {A : ℕ} (obs act : List (D A))
    (critics : List (CriticNet A)) : D A :=
  match critics.map (fun c => c.q.applyD (obs ++ act)) with
  | [] => D.const 0
  | v :: vs => vs.foldl D.tMin v

/-- Modelled from the spec: the environment-function record attached by
`EnvFunctionsMixin` (`raylab/losses/mixins.py`, absent from `src/`) —
a differentiable reward function and a batched termination function,
each optional until supplied during setup. -/
structure EnvFunctions where
  reward : Option SmoothFn
  termination : Option (List ℚ → List ℚ → List ℚ → Bool)

/-- Modelled from the spec: `EnvFunctions.initialized` — setup is
complete when both reward and termination functions were supplied. -/
def EnvFunctions.isInitialized (env : EnvFunctions) : Bool :=
  env.reward.isSome && env.termination.isSome

/-- One transition of the tensor batch handed to the loss
(`SampleBatch.CUR_OBS`, `SampleBatch.ACTIONS`, `SampleBatch.NEXT_OBS`). -/
structure BatchElem where
  cur_obs : List ℚ
  actions : List ℚ
  next_obs : List ℚ

/-- Arithmetic mean of a rational list (`Tensor.mean`). -/
def listMean (l : List ℚ) : ℚ := l.sum / l.length

/-! ## SPAML (`raylab/losses/paml.py`)

Batch elements are processed per `(model, batch element)` pair.  All the
batched tensor operations of the source (`models`, `critics`, reward and
termination functions, `torch.where`, …) act independently on each batch
element, so the batched pipeline is embedded as its per-element dataflow
mapped over the ensemble and the batch.  Sampling operations are
abstracted by their noise: `generate_action` runs under `torch.no_grad`,
so only the values it draws matter; they enter as the input
`av i b : Fin A → ℚ` (action values for model `i`, batch element `b`),
out of which the source makes gradient leaves with
`action.requires_grad_(True)`.  `mnoise i b` and `pnoise i b` are the
model-sampling and next-action-sampling noises. -/

/-- The `SPAML` loss object: module references, environment functions and
coefficients.  `mle` is the per-model maximum-likelihood loss
`ModelEnsembleMLE` (`raylab/losses/mle.py`, absent from `src/`), held
opaque exactly as the source holds `self._loss_mle`. -/
structure SPAML (A : ℕ) where
  models : List (ModelNet A)
  policy : PolicyNet A
  critics : List (CriticNet A)
  env : EnvFunctions
  gamma : ℚ
  alpha : ℚ
  grad_estimator : String
  lambda_ : ℚ
  mle : List BatchElem → List ℚ

namespace SPAML

variable {A : ℕ}

/-- `SPAML.__init__`: coefficients are fixed to the source's defaults and
the environment functions start unattached. -/
def init (models : List (ModelNet A)) (actor : PolicyNet A)
    (critics : List (CriticNet A)) (mle : List BatchElem → List ℚ) :
    SPAML A :=
  { models := models, policy := actor, critics := critics
    env := ⟨none, none⟩
    gamma := 99/100, alpha := 1/20, grad_estimator := "SF"
    lambda_ := 1/20, mle := mle }

/-- `SPAML.initialized`: whether the loss setup is complete. -/
def isInitialized (sp : SPAML A) : Bool := sp.env.isInitialized

/-- The number of models in the ensemble. -/
def ensemble_size (sp : SPAML A) : ℕ := sp.models.length

/-- Modelled from the spec: `EnvFunctionsMixin.set_reward_fn`
(`raylab/losses/mixins.py`, absent from `src/`) — attach the
differentiable reward function. -/
def set_reward_fn (sp : SPAML A) (rw : SmoothFn) : SPAML A :=
  { sp with env := { sp.env with reward := some rw } }

/-- Modelled from the spec: `EnvFunctionsMixin.set_termination_fn`
(`raylab/losses/mixins.py`, absent from `src/`) — attach the batched
termination function. -/
def set_termination_fn (sp : SPAML A)
    (tm : List ℚ → List ℚ → List ℚ → Bool) : SPAML A :=
  { sp with env := { sp.env with termination := some tm } }

/-- `SPAML.expand_for_each_model`: the observation batch is expanded
across the ensemble dimension — each model scores the same observation. -/
def expand_for_each_model (sp : SPAML A) (obs : List ℚ) : List (List ℚ) :=
  List.replicate sp.ensemble_size obs

/-- `SPAML.generate_action` (per batch element): the action drawn from
the stochastic policy under `torch.no_grad` — its value components `av`
are an input here — turned into gradient leaves by
`action.requires_grad_(True)`. -/
def generate_action (av : Fin A → ℚ) : List (D A) :=
  (List.finRange A).map (fun k => D.actLeaf (av k) k)

/-- `SPAML.zero_step_action_value`: the action-value target, the minimum
among critic predictions at `(obs, action)`. -/
def zero_step_action_value (sp : SPAML A) (obs act : List (D A)) : D A :=
  clipped_action_value obs act sp.critics

/-- `SPAML.transition` for one model of the ensemble's `enumerate` loop:
`m.sample` under the `"SF"` estimator, `m.rsample` under `"PD"`; any
other estimator string assigns `model_outputs` in no branch, so the
subsequent use of `model_outputs` raises Python's `UnboundLocalError`. -/
def transition_one (sp : SPAML A) (m : ModelNet A) (obs act : List (D A))
    (noise : ℚ) : Except PyErr (List (D A) × D A) :=
  if sp.grad_estimator = "SF" then Except.ok (m.sample obs act noise)
  else if sp.grad_estimator = "PD" then Except.ok (m.rsample obs act noise)
  else Except.error (PyErr.unboundLocalError "model_outputs")

/-- The next-action block of `SPAML.one_step_action_value_surrogate`:

    self._modules["policy"].requires_grad_(False)
    next_act, logp = self._modules["policy"].rsample(next_obs)
    self._modules["policy"].requires_grad_(True)

The returned `Bool` is the `requires_grad` flag of the policy parameters
after the block: the sampling itself runs with the flag disabled, and the
flag is set back to enabled afterwards. -/
def resample_next_action (sp : SPAML A) (next_obs : List (D A))
    (noise : ℚ) : (List (D A) × D A) × Bool :=
  (sp.policy.rsample false next_obs noise, true)

/-- The bootstrapped value of `SPAML.one_step_action_value_surrogate`:
`torch.where(done, reward, reward + self.gamma * next_qval)`. -/
def bootstrapped_value (sp : SPAML A) (done : Bool) (reward next_qval : D A) :
    D A :=
  D.tWhere done reward (D.add reward (D.smul sp.gamma next_qval))

/-- `SPAML.one_step_action_value_surrogate` for one `(model, batch
element)` pair, with the attached reward function `rw` and termination
function `tm`.  Besides the surrogate value it returns the policy
parameters' `requires_grad` flag after the call. -/
def one_step_surrogate_one (sp : SPAML A) (rw : SmoothFn)
    (tm : List ℚ → List ℚ → List ℚ → Bool) (m : ModelNet A)
    (obs act : List (D A)) (mnoise pnoise : ℚ) :
    Except PyErr (D A × Bool) := do
  let (next_obs, log_prob) ← sp.transition_one m obs act mnoise
  let ((next_act, logp), flagAfter) := sp.resample_next_action next_obs pnoise
  let next_qval := clipped_action_value next_obs next_act sp.critics
  let reward := rw.applyD (obs ++ act ++ next_obs)
  let done := tm (obs.map D.val) (act.map D.val) (next_obs.map D.val)
  let next_vval :=
    D.sub (sp.bootstrapped_value done reward next_qval) (D.smul sp.alpha logp)
  if sp.grad_estimator = "SF" then
    Except.ok (D.mul log_prob (D.detach next_vval), flagAfter)
  else if sp.grad_estimator = "PD" then
    Except.ok (next_vval, flagAfter)
  else
    Except.error (PyErr.unboundLocalError "surrogate")

/-- `SPAML.one_step_action_value_surrogate` over the ensemble and the
batch: per-model lists of per-element surrogate values, together with the
policy parameters' `requires_grad` flag after the call. -/
def one_step_action_value_surrogate (sp : SPAML A) (rw : SmoothFn)
    (tm : List ℚ → List ℚ → List ℚ → Bool) (batch : List BatchElem)
    (av : ℕ → ℕ → Fin A → ℚ) (mnoise pnoise : ℕ → ℕ → ℚ) :
    Except PyErr (List (List (D A)) × Bool) := do
  let preds ← sp.models.enum.mapM (fun im =>
    batch.enum.mapM (fun be =>
      (sp.one_step_surrogate_one rw tm im.2 (be.2.cur_obs.map D.const)
        (generate_action (av im.1 be.1)) (mnoise im.1 be.1)
        (pnoise im.1 be.1)).map Prod.fst))
  Except.ok (preds, true)

/-- `SPAML.action_gradient_loss` for one model: the temporal difference
`value_target - value_pred` over the batch, its batch sum differentiated
with respect to the sampled action (`torch.autograd.grad` with
`create_graph=True`; each batch element's temporal difference depends
only on that element's own action, so the gradient of the batch sum at
element `b` is the `dAct` of element `b`'s summand), the absolute value
summed over the action dimension and averaged over the batch. -/
def action_gradient_loss (value_target value_pred : List (D A)) : ℚ :=
  let temporal_diff := List.zipWith D.sub value_target value_pred
  let action_gradient := temporal_diff.map D.dAct
  listMean (action_gradient.map (fun g => ∑ k, |g k|))

/-- `SPAML.maximum_likelihood_loss`: delegates to `ModelEnsembleMLE`. -/
def maximum_likelihood_loss (sp : SPAML A) (batch : List BatchElem) :
    List ℚ :=
  sp.mle batch

/-- `SPAML.__call__`: guard on `initialized`, expand the observations,
generate actions, compute target and surrogate values, combine
`grad_loss + self.lambda_ * mle_loss` per model, and report the info
record. -/
def call (sp : SPAML A) (batch : List BatchElem) (av : ℕ → ℕ → Fin A → ℚ)
    (mnoise pnoise : ℕ → ℕ → ℚ) :
    Except PyErr (List ℚ × List (String × ℚ)) :=
  match sp.env.reward, sp.env.termination with
  | some rw, some tm => do
    let value_target : List (List (D A)) := sp.models.enum.map (fun im =>
      batch.enum.map (fun be =>
        sp.zero_step_action_value (be.2.cur_obs.map D.const)
          (generate_action (av im.1 be.1))))
    let value_pred ← sp.one_step_action_value_surrogate rw tm batch av
      mnoise pnoise
    let grad_loss := List.zipWith action_gradient_loss value_target
      value_pred.1
    let mle_loss := sp.maximum_likelihood_loss batch
    let loss := List.zipWith (fun g m => g + sp.lambda_ * m) grad_loss
      mle_loss
    let info := loss.enum.map
        (fun il => ("loss(models[" ++ toString il.1 ++ "])", il.2))
      ++ [("loss(daml)", listMean grad_loss), ("loss(mle)", listMean mle_loss)]
    Except.ok (loss, info)
  | _, _ => Except.error (PyErr.uninitializedEnvironmentError
      "Environment functions missing. Did you set reward and termination functions?")

end SPAML

/-! ## Trainer configuration validators -/

/-- `NAFTrainer._validate_config` (`raylab/algorithms/naf/naf.py`):

    assert config["num_workers"] >= 0, "No point in using additional workers."
-/
def NAFTrainer.validate_config (num_workers : ℤ) : Except PyErr Unit :=
  if num_workers ≥ 0 then Except.ok ()
  else Except.error (PyErr.assertionError "No point in using additional workers.")

/-- `SVGInfTrainer._validate_config` (`raylab/algorithms/svg/svg_inf.py`):

    assert config["num_workers"] == 0, "No point in using additional workers."
-/
def SVGInfTrainer.validate_config (num_workers : ℤ) : Except PyErr Unit :=
  if num_workers = 0 then Except.ok ()
  else Except.error (PyErr.assertionError "No point in using additional workers.")

/-- `ACKTRTrainer._validate_config` (`raylab/algorithms/acktr/acktr.py`):

    assert config["module"].get("torch_script", False) is False, \
        "KFAC incompatible with TorchScript."

`torch_script` is the configured value of `config["module"]["torch_script"]`
(defaulting to `False` when absent). -/
def ACKTRTrainer.validate_config (torch_script : Bool) : Except PyErr Unit :=
  if torch_script = false then Except.ok ()
  else Except.error (PyErr.assertionError "KFAC incompatible with TorchScript.")

/-! ## Trainer loops as event traces

Each `_train` implementation is embedded as the trace of the replay- and
learning-relevant operations it performs, in program order.  Sampling
rounds are numbered; an `insert` event records which round's freshly
sampled batch the inserted transition belongs to, and a `draw` event
records in which round the replay minibatch was requested and its size. -/

/-- One replay/learning operation of a trainer loop. -/
inductive Ev where
  /-- `worker.sample()` returning `count` transitions in round `r`. -/
  | sample (r count : ℕ)
  /-- `self.replay.add(...)` of transition `idx` of round `r`'s batch. -/
  | insert (r idx : ℕ)
  /-- `self.replay.sample(self.config["train_batch_size"])` in round `r`,
  with minibatch size `size`. -/
  | draw (r size : ℕ)
  /-- `policy.learn_on_batch(batch)` on a replay minibatch in round `r`. -/
  | learnOff (r : ℕ)
  /-- `policy.learn_on_batch(samples)` on the fresh on-policy batch. -/
  | learnOn (r : ℕ)
  /-- `policy.update_old_policy()` (SVG(1)). -/
  | updateOldPolicy (r : ℕ)
  /-- `policy.update_kl_coeff(samples)` (SVG(1)). -/
  | updateKl (r : ℕ)
  deriving DecidableEq, Repr

/-- The sampling round an event belongs to. -/
def Ev.round : Ev → ℕ
  | .sample r _ => r
  | .insert r _ => r
  | .draw r _ => r
  | .learnOff r => r
  | .learnOn r => r
  | .updateOldPolicy r => r
  | .updateKl r => r

/-- Whether an event is a replay-buffer insertion. -/
def Ev.isInsert : Ev → Bool
  | .insert _ _ => true
  | _ => false

/-- Whether an event is a replay-buffer minibatch draw. -/
def Ev.isDraw : Ev → Bool
  | .draw _ _ => true
  | _ => false

/-- Python `int()` applied to a nonnegative float-valued expression such
as `samples.count * self.config["updates_per_step"]`: truncation toward
zero. -/
def pyInt (q : ℚ) : ℤ := Int.tdiv q.num (q.den : ℤ)

/-- The trace of one `_train` call of the agents-path `SVGInfTrainer`
(`raylab/agents/svg/svg_inf.py`): sample a fresh batch of `count`
transitions, insert each row into the replay buffer, run
`int(samples.count * updates_per_step)` off-policy updates each drawing a
replay minibatch of `train_batch_size`, then one on-policy update on the
fresh batch. -/
def SVGInfAgentTrainer.train_trace (r count : ℕ) (updates_per_step : ℚ)
    (train_batch_size : ℕ) : List Ev :=
  Ev.sample r count :: (List.range count).map (Ev.insert r)
    ++ (List.range (pyInt (count * updates_per_step)).toNat).flatMap
        (fun _ => [Ev.draw r train_batch_size, Ev.learnOff r])
    ++ [Ev.learnOn r]

/-- The trace of one iteration of the older algorithms-path
`SVGInfTrainer._train` (`raylab/algorithms/svg/svg_inf.py`): sample,
insert each row, `samples.count` off-policy updates, one on-policy
update. -/
def SVGInfTrainer.train_trace (r count : ℕ) (train_batch_size : ℕ) :
    List Ev :=
  Ev.sample r count :: (List.range count).map (Ev.insert r)
    ++ (List.range count).flatMap
        (fun _ => [Ev.draw r train_batch_size, Ev.learnOff r])
    ++ [Ev.learnOn r]

/-- The trace of one sampling round of `NAFTrainer._train`'s `while True`
loop (`raylab/algorithms/naf/naf.py`): sample a fresh batch of `count`
transitions, insert each row, then `samples.count` off-policy updates
each drawing a replay minibatch of `train_batch_size`. -/
def NAFTrainer.round_trace (r count : ℕ) (train_batch_size : ℕ) : List Ev :=
  Ev.sample r count :: (List.range count).map (Ev.insert r)
    ++ (List.range count).flatMap
        (fun _ => [Ev.draw r train_batch_size, Ev.learnOff r])

/-- The trace of one `NAFTrainer._train` call whose successive sampling
rounds return the batch sizes `counts`, numbering rounds from `r0`. -/
def NAFTrainer.train_trace_from (r0 : ℕ) (counts : List ℕ)
    (train_batch_size : ℕ) : List Ev :=
  match counts with
  | [] => []
  | c :: cs => NAFTrainer.round_trace r0 c train_batch_size
      ++ NAFTrainer.train_trace_from (r0 + 1) cs train_batch_size

/-- The trace of one sampling round of `SVGOneTrainer._train`'s
`while not self._iteration_done()` loop
(`raylab/algorithms/svg/svg_one.py`): sample, insert each row,
`update_old_policy`, `samples.count` off-policy updates, then
`update_kl_coeff` on the fresh batch. -/
def SVGOneTrainer.round_trace (r count : ℕ) (train_batch_size : ℕ) :
    List Ev :=
  Ev.sample r count :: (List.range count).map (Ev.insert r)
    ++ [Ev.updateOldPolicy r]
    ++ (List.range count).flatMap
        (fun _ => [Ev.draw r train_batch_size, Ev.learnOff r])
    ++ [Ev.updateKl r]

/-- The trace of one `SVGOneTrainer._train` call whose successive
sampling rounds return the batch sizes `counts`. -/
def SVGOneTrainer.train_trace_from (r0 : ℕ) (counts : List ℕ)
    (train_batch_size : ℕ) : List Ev :=
  match counts with
  | [] => []
  | c :: cs => SVGOneTrainer.round_trace r0 c train_batch_size
      ++ SVGOneTrainer.train_trace_from (r0 + 1) cs train_batch_size

/-! ## Python dict merge (`REPORT` statistics) -/

/-- A Python dict of scalar statistics: association list with the first
binding of a key authoritative. -/
abbrev PyDict (V : Type) : Type := List (String × V)

/-- Lookup (`d[k]` / `k in d`). -/
def PyDict.get {V : Type} (d : PyDict V) (k : String) : Option V :=
  match d with
  | [] => none
  | p :: rest => if p.1 = k then some p.2 else PyDict.get rest k

/-- `d[k] = v`: replace the value of an existing key in place, else
append the new binding. -/
def PyDict.setItem {V : Type} (d : PyDict V) (k : String) (v : V) :
    PyDict V :=
  if (PyDict.get d k).isSome then
    d.map (fun p => if p.1 = k then (k, v) else p)
  else d ++ [(k, v)]

/-- `{**a, **b}`: start from `a`, then write every binding of `b` in
order. -/
def PyDict.merge {V : Type} (a b : PyDict V) : PyDict V :=
  b.foldl (fun d p => PyDict.setItem d p.1 p.2) a

/-- The `REPORT`-step statistics record of `SVGInfTrainer._train`
(both `raylab/agents/svg/svg_inf.py` and
`raylab/algorithms/svg/svg_inf.py`):

    learner_stats = {**off_policy_stats, **on_policy_stats}
-/
def SVGInfTrainer.learner_stats (off_policy_stats on_policy_stats :
    PyDict ℚ) : PyDict ℚ :=
  PyDict.merge off_policy_stats on_policy_stats

/-- The shape of one sampling round's event segment: a prefix free of
replay draws (the sampling and insertion phase) followed by a suffix
free of replay insertions (the update phase), all events tagged with the
round's number. -/
structure RoundShape (r : ℕ) (seg : List Ev) : Prop where
  split : ∃ xs ys, seg = xs ++ ys
    ∧ (∀ e ∈ xs, e.isDraw = false) ∧ (∀ e ∈ ys, e.isInsert = false)
  rounds : ∀ e ∈ seg, e.round = r

/-- A trace that is a concatenation of round segments with strictly
increasing round numbers starting at `r`. -/
inductive RoundsFrom : ℕ → List Ev → Prop where
  | nil (r : ℕ) : RoundsFrom r []
  | cons {r : ℕ} {seg rest : List Ev} : RoundShape r seg →
      RoundsFrom (r + 1) rest → RoundsFrom r (seg ++ rest)

/-! ## Concrete instances used by witnesses -/

/-- A concrete differentiable module: the sum of its inputs (every
partial derivative equals `1`). -/
def sumFn : SmoothFn := ⟨fun vs => vs.sum, fun vs => vs.map (fun _ => 1)⟩

/-- A concrete one-model, one-critic module set over a one-dimensional
observation and action space. -/
def exModel : ModelNet 1 := ⟨0, [sumFn], sumFn⟩

def exPolicy : PolicyNet 1 := ⟨0, [sumFn], sumFn⟩

def exCritic : CriticNet 1 := ⟨sumFn⟩

/-- A concrete `SPAML` loss fresh from `SPAML.__init__` (environment
functions not yet attached, `grad_estimator = "SF"`). -/
def exSPAML : SPAML 1 := SPAML.init [exModel] exPolicy [exCritic] (fun _ => [0])

/-- An always-false termination function. -/
def exTerm : List ℚ → List ℚ → List ℚ → Bool := fun _ _ _ => false

/-- A one-element batch. -/
def exBatch : List BatchElem := [⟨[0], [0], [0]⟩]

/-! ## Claim theorems and supporting lemmas -/

/-- C5: `NAFTrainer._validate_config` asserts `num_workers >= 0`, which a
configuration requesting one distributed worker satisfies, so NAF trainer
construction raises no validation error for `num_workers = 1` — contrary
to the claim (and to the assert's own message, which matches the strict
check `num_workers == 0` of `SVGInfTrainer._validate_config`).  The
SVG(inf) and ACKTR validators do reject their respective inputs. -/
theorem C5_naf_validate_config_accepts_distributed_workers :
    NAFTrainer.validate_config 1 = Except.ok ()
  ∧ SVGInfTrainer.validate_config 1
      = Except.error (PyErr.assertionError "No point in using additional workers.")
  ∧ ACKTRTrainer.validate_config true
      = Except.error (PyErr.assertionError "KFAC incompatible with TorchScript.") := by
  refine ⟨?_, ?_, ?_⟩ <;> norm_num [NAFTrainer.validate_config,
    SVGInfTrainer.validate_config, ACKTRTrainer.validate_config]


theorem PyDict.get_eq_none_of_not_mem {V : Type} (d : PyDict V) (k : String)
    (h : k ∉ d.map Prod.fst) : PyDict.get d k = none := by
  induction d with
  | nil => rfl
  | cons p rest ih =>
    simp only [List.map_cons, List.mem_cons, not_or] at h
    rw [PyDict.get, if_neg (fun hk => h.1 hk.symm)]
    exact ih h.2

theorem PyDict.get_map_replace_self {V : Type} (d : PyDict V) (k : String)
    (v w : V) (hw : PyDict.get d k = some w) :
    PyDict.get (d.map (fun p => if p.1 = k then (k, v) else p)) k
      = some v := by
  induction d with
  | nil => simp [PyDict.get] at hw
  | cons p rest ih =>
    simp only [List.map_cons]
    by_cases hp : p.1 = k
    · rw [if_pos hp, PyDict.get, if_pos rfl]
    · rw [PyDict.get, if_neg hp] at hw
      rw [if_neg hp, PyDict.get, if_neg hp]
      exact ih hw

theorem PyDict.get_map_replace_ne {V : Type} (d : PyDict V) (k k' : String)
    (v : V) (h : k' ≠ k) :
    PyDict.get (d.map (fun p => if p.1 = k then (k, v) else p)) k'
      = PyDict.get d k' := by
  induction d with
  | nil => rfl
  | cons p rest ih =>
    simp only [List.map_cons]
    by_cases hp : p.1 = k
    · have h1 : ¬ (k = k') := fun hkk => h hkk.symm
      have h2 : ¬ (p.1 = k') := hp ▸ h1
      rw [if_pos hp, PyDict.get, if_neg h1, PyDict.get, if_neg h2]
      exact ih
    · rw [if_neg hp, PyDict.get, PyDict.get]
      by_cases hp' : p.1 = k'
      · rw [if_pos hp', if_pos hp']
      · rw [if_neg hp', if_neg hp']
        exact ih

theorem PyDict.get_append_single_self {V : Type} (d : PyDict V)
    (k : String) (v : V) (h : PyDict.get d k = none) :
    PyDict.get (d ++ [(k, v)]) k = some v := by
  induction d with
  | nil => simp [PyDict.get]
  | cons p rest ih =>
    rw [PyDict.get] at h
    by_cases hp : p.1 = k
    · rw [if_pos hp] at h; cases h
    · rw [if_neg hp] at h
      rw [List.cons_append, PyDict.get, if_neg hp]
      exact ih h

theorem PyDict.get_append_single_ne {V : Type} (d : PyDict V)
    (k k' : String) (v : V) (h : k' ≠ k) :
    PyDict.get (d ++ [(k, v)]) k' = PyDict.get d k' := by
  induction d with
  | nil => simp [PyDict.get, Ne.symm h]
  | cons p rest ih =>
    rw [List.cons_append, PyDict.get, PyDict.get]
    by_cases hp : p.1 = k'
    · rw [if_pos hp, if_pos hp]
    · rw [if_neg hp, if_neg hp]; exact ih

theorem PyDict.get_setItem_self {V : Type} (d : PyDict V) (k : String)
    (v : V) : PyDict.get (PyDict.setItem d k v) k = some v := by
  unfold PyDict.setItem
  cases hw : PyDict.get d k with
  | none =>
    rw [if_neg (by simp)]
    exact PyDict.get_append_single_self d k v hw
  | some w =>
    rw [if_pos (by simp)]
    exact PyDict.get_map_replace_self d k v w hw

theorem PyDict.get_setItem_ne {V : Type} (d : PyDict V) (k k' : String)
    (v : V) (h : k' ≠ k) :
    PyDict.get (PyDict.setItem d k v) k' = PyDict.get d k' := by
  unfold PyDict.setItem
  cases hw : PyDict.get d k with
  | none =>
    rw [if_neg (by simp)]
    exact PyDict.get_append_single_ne d k k' v h
  | some w =>
    rw [if_pos (by simp)]
    exact PyDict.get_map_replace_ne d k k' v h

theorem PyDict.get_merge {V : Type} (a b : PyDict V) (k : String)
    (hnd : (b.map Prod.fst).Nodup) :
    PyDict.get (PyDict.merge a b) k
      = (PyDict.get b k).or (PyDict.get a k) := by
  induction b generalizing a with
  | nil => simp [PyDict.merge, PyDict.get, Option.or]
  | cons p rest ih =>
    simp only [List.map_cons, List.nodup_cons] at hnd
    have step : PyDict.merge a (p :: rest)
        = PyDict.merge (PyDict.setItem a p.1 p.2) rest := rfl
    rw [step, ih _ hnd.2]
    by_cases hk : p.1 = k
    · subst hk
      rw [PyDict.get_eq_none_of_not_mem rest p.1 hnd.1,
        PyDict.get_setItem_self, PyDict.get, if_pos rfl]
      rfl
    · rw [PyDict.get_setItem_ne _ _ _ _ (fun hkk => hk hkk.symm),
        PyDict.get, if_neg hk]

/-- C9: in the `REPORT` merge `{**off_policy_stats, **on_policy_stats}`,
on-policy keys take precedence on collision: any key bound by the
on-policy record maps to its on-policy value in the merged record, and
any key the on-policy record does not bind keeps the off-policy record's
binding — so a key present in both records gets the on-policy value and
a key present in exactly one record is preserved with its value. -/
theorem C9_report_merge_on_policy_precedence (offp onp : PyDict ℚ)
    (hnd : (onp.map Prod.fst).Nodup) :
    (∀ k v, PyDict.get onp k = some v →
      PyDict.get (SVGInfTrainer.learner_stats offp onp) k = some v)
  ∧ (∀ k, PyDict.get onp k = none →
      PyDict.get (SVGInfTrainer.learner_stats offp onp) k
        = PyDict.get offp k) := by
  constructor
  · intro k v hv
    rw [SVGInfTrainer.learner_stats, PyDict.get_merge _ _ _ hnd, hv]
    rfl
  · intro k hk
    rw [SVGInfTrainer.learner_stats, PyDict.get_merge _ _ _ hnd, hk]
    rfl

/-- Witness for C9 at concrete records: the colliding key `"b"` gets the
on-policy value `5`, the off-policy-only key `"a"` and the
on-policy-only key `"c"` are preserved. -/
theorem C9_report_merge_witness :
    PyDict.get (SVGInfTrainer.learner_stats
        [("a", (1 : ℚ)), ("b", 2)] [("b", 5), ("c", 7)]) "b" = some 5
  ∧ PyDict.get (SVGInfTrainer.learner_stats
        [("a", (1 : ℚ)), ("b", 2)] [("b", 5), ("c", 7)]) "a" = some 1
  ∧ PyDict.get (SVGInfTrainer.learner_stats
        [("a", (1 : ℚ)), ("b", 2)] [("b", 5), ("c", 7)]) "c" = some 7 := by
  have h := C9_report_merge_on_policy_precedence
    [("a", (1 : ℚ)), ("b", 2)] [("b", 5), ("c", 7)] (by decide)
  refine ⟨h.1 "b" 5 (by rfl), ?_, h.1 "c" 7 (by rfl)⟩
  rw [h.2 "a" (by rfl)]
  rfl

theorem count_flatMap_range {α} [DecidableEq α] (n : ℕ) (l : List α) (x : α) :
    (((List.range n).flatMap (fun _ => l)).count x) = n * l.count x := by
  induction n with
  | zero => simp
  | succ n ih =>
    rw [List.range_succ, List.flatMap_append, List.count_append, ih]
    simp [Nat.succ_mul]

theorem count_map_insert (r c : ℕ) (x : Ev) (h : ∀ i, x ≠ Ev.insert r i) :
    ((List.range c).map (Ev.insert r)).count x = 0 := by
  rw [List.count_eq_zero]
  intro hmem
  rcases List.mem_map.mp hmem with ⟨i, _, hi⟩
  exact h i hi.symm

/-- C6: in each `_train` call of the agents-path SVG(inf) trainer the
number of off-policy `learn_on_batch` updates equals
`int(samples.count * updates_per_step)`, each update drawing exactly one
replay minibatch of size `train_batch_size`; in each sampling round of
the NAF trainer the number of off-policy updates is exactly
`samples.count`, again one minibatch of size `train_batch_size` per
update. -/
theorem C6_offpolicy_update_counts (r count train_batch_size : ℕ)
    (updates_per_step : ℚ) :
    ((SVGInfAgentTrainer.train_trace r count updates_per_step
        train_batch_size).count (Ev.learnOff r)
      = (pyInt (count * updates_per_step)).toNat)
  ∧ ((SVGInfAgentTrainer.train_trace r count updates_per_step
        train_batch_size).count (Ev.draw r train_batch_size)
      = (pyInt (count * updates_per_step)).toNat)
  ∧ (∀ r' s, Ev.draw r' s ∈ SVGInfAgentTrainer.train_trace r count
        updates_per_step train_batch_size →
      r' = r ∧ s = train_batch_size)
  ∧ ((NAFTrainer.round_trace r count train_batch_size).count
        (Ev.learnOff r) = count)
  ∧ ((NAFTrainer.round_trace r count train_batch_size).count
        (Ev.draw r train_batch_size) = count)
  ∧ (∀ r' s, Ev.draw r' s ∈ NAFTrainer.round_trace r count
        train_batch_size → r' = r ∧ s = train_batch_size) := by
  unfold SVGInfAgentTrainer.train_trace NAFTrainer.round_trace
  refine ⟨?_, ?_, ?_, ?_, ?_, ?_⟩
  · have h1 := count_map_insert r count (Ev.learnOff r) (by intro i; simp)
    simp only [List.cons_append, List.count_append, List.count_cons,
      count_flatMap_range, h1]
    simp
  · have h1 := count_map_insert r count (Ev.draw r train_batch_size)
      (by intro i; simp)
    simp only [List.cons_append, List.count_append, List.count_cons,
      count_flatMap_range, h1]
    simp
  · intro r' s hmem
    simp only [List.cons_append, List.mem_cons, List.mem_append,
      List.mem_map, List.mem_flatMap, List.mem_range,
      List.mem_singleton] at hmem
    rcases hmem with h | ⟨i, _, h⟩ | ⟨i, _, h⟩ | h <;> simp_all
  · have h1 := count_map_insert r count (Ev.learnOff r) (by intro i; simp)
    simp only [List.cons_append, List.count_append, List.count_cons,
      count_flatMap_range, h1]
    simp
  · have h1 := count_map_insert r count (Ev.draw r train_batch_size)
      (by intro i; simp)
    simp only [List.cons_append, List.count_append, List.count_cons,
      count_flatMap_range, h1]
    simp
  · intro r' s hmem
    simp only [List.cons_append, List.mem_cons, List.mem_append,
      List.mem_map, List.mem_flatMap, List.mem_range] at hmem
    rcases hmem with h | ⟨i, _, h⟩ | ⟨i, _, h⟩ <;> simp_all

theorem mapM_error_head {α β ε} (f : α → Except ε β) (a : α) (l : List α)
    (e : ε) (h : f a = Except.error e) :
    (a :: l).mapM f = Except.error e := by
  rw [List.mapM_cons, h]; rfl

theorem mapM_enum_error_head {α β ε} (f : ℕ × α → Except ε β) (a : α)
    (l : List α) (e : ε) (h : f (0, a) = Except.error e) :
    (a :: l).enum.mapM f = Except.error e := by
  rw [List.enum_cons, mapM_error_head _ _ _ _ h]

/-- C10: for any `grad_estimator` other than `"SF"` and `"PD"`, neither
branch of `SPAML.transition` assigns `model_outputs`, so the transition,
and with it `one_step_action_value_surrogate`, fails with Python's
unbound-local-variable error (not with a value or a descriptive
configuration error). -/
theorem C10_unrecognized_grad_estimator_unbound {A : ℕ} (sp : SPAML A)
    (hsf : sp.grad_estimator ≠ "SF") (hpd : sp.grad_estimator ≠ "PD")
    (rw : SmoothFn) (tm : List ℚ → List ℚ → List ℚ → Bool)
    (m : ModelNet A) (obs act : List (D A)) (mn pn : ℚ)
    (batch : List BatchElem) (av : ℕ → ℕ → Fin A → ℚ)
    (mnf pnf : ℕ → ℕ → ℚ) (hm : sp.models ≠ []) (hb : batch ≠ []) :
    sp.transition_one m obs act mn
      = Except.error (PyErr.unboundLocalError "model_outputs")
  ∧ sp.one_step_surrogate_one rw tm m obs act mn pn
      = Except.error (PyErr.unboundLocalError "model_outputs")
  ∧ sp.one_step_action_value_surrogate rw tm batch av mnf pnf
      = Except.error (PyErr.unboundLocalError "model_outputs") := by
  have ht : ∀ (m' : ModelNet A) (o a : List (D A)) (ν : ℚ),
      sp.transition_one m' o a ν
        = Except.error (PyErr.unboundLocalError "model_outputs") := by
    intro m' o a ν
    simp [SPAML.transition_one, hsf, hpd]
  have hs : ∀ (m' : ModelNet A) (o a : List (D A)) (ν ν' : ℚ),
      sp.one_step_surrogate_one rw tm m' o a ν ν'
        = Except.error (PyErr.unboundLocalError "model_outputs") := by
    intro m' o a ν ν'
    rw [SPAML.one_step_surrogate_one, ht]
    rfl
  refine ⟨ht m obs act mn, hs m obs act mn pn, ?_⟩
  cases hmm : sp.models with
  | nil => exact absurd hmm hm
  | cons m0 ms =>
    cases hbb : batch with
    | nil => exact absurd hbb hb
    | cons b0 bs =>
      rw [SPAML.one_step_action_value_surrogate, hmm]
      rw [mapM_enum_error_head]
      · rfl
      · rw [mapM_enum_error_head]
        rw [hs]
        rfl

/-- Witness for C10 at the concrete estimator string `"XX"`. -/
theorem C10_witness :
    SPAML.transition_one { exSPAML with grad_estimator := "XX" } exModel
        [D.const 0] [D.const 0] 0
      = Except.error (PyErr.unboundLocalError "model_outputs")
  ∧ SPAML.one_step_surrogate_one { exSPAML with grad_estimator := "XX" }
        sumFn exTerm exModel [D.const 0] [D.const 0] 0 0
      = Except.error (PyErr.unboundLocalError "model_outputs")
  ∧ SPAML.one_step_action_value_surrogate
        { exSPAML with grad_estimator := "XX" } sumFn exTerm exBatch
        (fun _ _ _ => 0) (fun _ _ => 0) (fun _ _ => 0)
      = Except.error (PyErr.unboundLocalError "model_outputs") :=
  C10_unrecognized_grad_estimator_unbound
    { exSPAML with grad_estimator := "XX" } (by decide) (by decide)
    sumFn exTerm exModel [D.const 0] [D.const 0] 0 0 exBatch
    (fun _ _ _ => 0) (fun _ _ => 0) (fun _ _ => 0)
    (by simp [exSPAML, SPAML.init]) (by simp [exBatch])

/-- C3: on a terminal transition the bootstrapped value
`torch.where(done, reward, reward + gamma * next_qval)` computed in
`SPAML.one_step_action_value_surrogate` equals the reward term exactly,
for every value of `next_qval`; consequently, under an always-terminal
termination function the whole per-element surrogate is independent of
the critics that produce `next_qval`. -/
theorem C3_terminal_gates_bootstrap {A : ℕ} (sp : SPAML A) (done : Bool)
    (hdone : done = true) (reward next_qval next_qval' : D A)
    (rw : SmoothFn) (m : ModelNet A) (obs act : List (D A)) (mn pn : ℚ)
    (critics₁ critics₂ : List (CriticNet A)) :
    sp.bootstrapped_value done reward next_qval = reward
  ∧ sp.bootstrapped_value done reward next_qval
      = sp.bootstrapped_value done reward next_qval'
  ∧ SPAML.one_step_surrogate_one { sp with critics := critics₁ } rw
        (fun _ _ _ => true) m obs act mn pn
      = SPAML.one_step_surrogate_one { sp with critics := critics₂ } rw
        (fun _ _ _ => true) m obs act mn pn := by
  subst hdone
  refine ⟨rfl, rfl, ?_⟩
  rw [SPAML.one_step_surrogate_one, SPAML.one_step_surrogate_one]
  rw [show SPAML.transition_one { sp with critics := critics₂ } m obs act mn
      = SPAML.transition_one { sp with critics := critics₁ } m obs act mn
    from rfl]
  cases SPAML.transition_one { sp with critics := critics₁ } m obs act mn with
  | error e => rfl
  | ok val =>
    rcases val with ⟨nxt, lp⟩
    rfl

/-- Witness for C3 at a terminal transition with an extreme `next_qval`:
the bootstrapped value is the reward, untouched by `next_qval = 1000000`. -/
theorem C3_terminal_witness :
    exSPAML.bootstrapped_value true (D.const 3) (D.const 1000000)
      = D.const 3
  ∧ exSPAML.bootstrapped_value true (D.const 3) (D.const 1000000)
      = exSPAML.bootstrapped_value true (D.const 3) (D.const (-1000000))
  ∧ SPAML.one_step_surrogate_one { exSPAML with critics := [exCritic] }
        sumFn (fun _ _ _ => true) exModel [D.const 0] [D.const 0] 0 0
      = SPAML.one_step_surrogate_one { exSPAML with critics := [] }
        sumFn (fun _ _ _ => true) exModel [D.const 0] [D.const 0] 0 0 :=
  C3_terminal_gates_bootstrap exSPAML true rfl (D.const 3)
    (D.const 1000000) (D.const (-1000000)) sumFn exModel
    [D.const 0] [D.const 0] 0 0 [exCritic] []

theorem mapM_ok_of_forall {α β ε} (f : α → Except ε β) (l : List α)
    (h : ∀ a ∈ l, ∃ b, f a = Except.ok b) :
    ∃ bs, l.mapM f = Except.ok bs := by
  induction l with
  | nil => exact ⟨[], rfl⟩
  | cons a as ih =>
    obtain ⟨b, hb⟩ := h a (by simp)
    obtain ⟨bs, hbs⟩ := ih (fun x hx => h x (by simp [hx]))
    exact ⟨b :: bs, by rw [List.mapM_cons, hb, hbs]; rfl⟩

/-- With a recognized gradient estimator the per-element surrogate never
fails. -/
theorem surrogate_one_ok {A : ℕ} (sp : SPAML A)
    (hge : sp.grad_estimator = "SF" ∨ sp.grad_estimator = "PD")
    (rw : SmoothFn) (tm : List ℚ → List ℚ → List ℚ → Bool)
    (m : ModelNet A) (obs act : List (D A)) (mn pn : ℚ) :
    ∃ out, sp.one_step_surrogate_one rw tm m obs act mn pn
      = Except.ok out := by
  rcases hge with h | h <;>
  · rw [SPAML.one_step_surrogate_one, SPAML.transition_one, h]
    exact ⟨_, rfl⟩

/-- C4: invoking the SPAML loss before reward and termination functions
are attached fails with the uninitialized-environment error; completing
setup on the same loss object (attaching both functions, without
reconstructing it) makes the same call succeed. -/
theorem C4_uninitialized_env_error {A : ℕ} (sp : SPAML A)
    (batch : List BatchElem) (av : ℕ → ℕ → Fin A → ℚ)
    (mn pn : ℕ → ℕ → ℚ)
    (hni : sp.isInitialized = false)
    (hge : sp.grad_estimator = "SF" ∨ sp.grad_estimator = "PD")
    (rw : SmoothFn) (tm : List ℚ → List ℚ → List ℚ → Bool) :
    sp.call batch av mn pn
      = Except.error (PyErr.uninitializedEnvironmentError
        "Environment functions missing. Did you set reward and termination functions?")
  ∧ ((sp.set_reward_fn rw).set_termination_fn tm).isInitialized = true
  ∧ ∃ out, ((sp.set_reward_fn rw).set_termination_fn tm).call batch av mn pn
      = Except.ok out := by
  refine ⟨?_, rfl, ?_⟩
  · unfold SPAML.isInitialized EnvFunctions.isInitialized at hni
    rcases hr : sp.env.reward with _ | r <;>
      rcases ht : sp.env.termination with _ | t <;>
      simp only [SPAML.call, hr, ht]
    rw [hr, ht] at hni
    simp at hni
  · set sp' := (sp.set_reward_fn rw).set_termination_fn tm with hsp'
    have hge' : sp'.grad_estimator = "SF" ∨ sp'.grad_estimator = "PD" := hge
    have hone : ∀ im ∈ sp'.models.enum, ∃ bs,
        batch.enum.mapM (fun be =>
          (sp'.one_step_surrogate_one rw tm im.2
            (be.2.cur_obs.map D.const)
            (SPAML.generate_action (av im.1 be.1)) (mn im.1 be.1)
            (pn im.1 be.1)).map Prod.fst) = Except.ok bs := by
      intro im _
      refine mapM_ok_of_forall _ _ (fun be _ => ?_)
      obtain ⟨out, hout⟩ := surrogate_one_ok sp' hge' rw tm im.2
        (be.2.cur_obs.map D.const)
        (SPAML.generate_action (av im.1 be.1)) (mn im.1 be.1)
        (pn im.1 be.1)
      exact ⟨out.1, by rw [hout]; rfl⟩
    obtain ⟨preds, hpreds⟩ := mapM_ok_of_forall _ _ hone
    have hsur : sp'.one_step_action_value_surrogate rw tm batch av mn pn
        = Except.ok (preds, true) := by
      rw [SPAML.one_step_action_value_surrogate, hpreds]
      rfl
    show ∃ out, SPAML.call sp' batch av mn pn = Except.ok out
    rw [show SPAML.call sp' batch av mn pn = (do
        let value_pred ← sp'.one_step_action_value_surrogate rw tm batch av
          mn pn
        let grad_loss := List.zipWith SPAML.action_gradient_loss
          (sp'.models.enum.map (fun im => batch.enum.map (fun be =>
            sp'.zero_step_action_value (be.2.cur_obs.map D.const)
              (SPAML.generate_action (av im.1 be.1))))) value_pred.1
        let mle_loss := sp'.maximum_likelihood_loss batch
        let loss := List.zipWith (fun g m => g + sp'.lambda_ * m) grad_loss
          mle_loss
        Except.ok (loss, loss.enum.map
            (fun il => ("loss(models[" ++ toString il.1 ++ "])", il.2))
          ++ [("loss(daml)", listMean grad_loss),
              ("loss(mle)", listMean mle_loss)])) from rfl]
    rw [hsur]
    exact ⟨_, rfl⟩

/-- Witness for C4: the freshly initialized loss fails with the
uninitialized-environment error; attaching reward and termination
functions to the same object and calling again succeeds. -/
theorem C4_uninitialized_witness :
    exSPAML.call exBatch (fun _ _ _ => 0) (fun _ _ => 0) (fun _ _ => 0)
      = Except.error (PyErr.uninitializedEnvironmentError
        "Environment functions missing. Did you set reward and termination functions?")
  ∧ ((exSPAML.set_reward_fn sumFn).set_termination_fn exTerm).isInitialized
      = true
  ∧ ∃ out, ((exSPAML.set_reward_fn sumFn).set_termination_fn exTerm).call
      exBatch (fun _ _ _ => 0) (fun _ _ => 0) (fun _ _ => 0)
      = Except.ok out :=
  C4_uninitialized_env_error exSPAML exBatch (fun _ _ _ => 0)
    (fun _ _ => 0) (fun _ _ => 0) rfl (Or.inl rfl) sumFn exTerm

theorem sublist_pair_append {α} {x y : α} {a b : List α}
    (h : List.Sublist [x, y] (a ++ b)) :
    List.Sublist [x, y] a ∨ List.Sublist [x, y] b ∨ (x ∈ a ∧ y ∈ b) := by
  rcases List.sublist_append_iff.mp h with ⟨u, v, huv, hu, hv⟩
  cases u with
  | nil =>
    rw [List.nil_append] at huv
    rw [← huv] at hv
    exact Or.inr (Or.inl hv)
  | cons u1 us =>
    cases us with
    | nil =>
      rw [List.cons_append, List.nil_append] at huv
      injection huv with h1 h2
      subst h1
      subst h2
      exact Or.inr (Or.inr ⟨List.singleton_sublist.mp hu,
        List.singleton_sublist.mp hv⟩)
    | cons u2 uss =>
      rw [List.cons_append, List.cons_append] at huv
      injection huv with h1 h2
      injection h2 with h3 h4
      subst h1
      subst h3
      obtain ⟨h5, h6⟩ := List.append_eq_nil.mp h4.symm
      subst h5
      exact Or.inl hu

theorem sublist_triple_append {α} {x y z : α} {a b : List α}
    (h : List.Sublist [x, y, z] (a ++ b)) :
    List.Sublist [x, y, z] a ∨ List.Sublist [x, y, z] b
  ∨ (x ∈ a ∧ List.Sublist [y, z] b)
  ∨ (List.Sublist [x, y] a ∧ z ∈ b) := by
  rcases List.sublist_append_iff.mp h with ⟨u, v, huv, hu, hv⟩
  cases u with
  | nil =>
    rw [List.nil_append] at huv
    rw [← huv] at hv
    exact Or.inr (Or.inl hv)
  | cons u1 us =>
    cases us with
    | nil =>
      rw [List.cons_append, List.nil_append] at huv
      injection huv with h1 h2
      subst h1
      subst h2
      exact Or.inr (Or.inr (Or.inl ⟨List.singleton_sublist.mp hu, hv⟩))
    | cons u2 uss =>
      cases uss with
      | nil =>
        rw [List.cons_append, List.cons_append, List.nil_append] at huv
        injection huv with h1 h2
        injection h2 with h3 h4
        subst h1
        subst h3
        subst h4
        exact Or.inr (Or.inr (Or.inr ⟨hu, List.singleton_sublist.mp hv⟩))
      | cons u3 usss =>
        rw [List.cons_append, List.cons_append, List.cons_append] at huv
        injection huv with h1 h2
        injection h2 with h3 h4
        injection h4 with h5 h6
        subst h1
        subst h3
        subst h5
        obtain ⟨h7, h8⟩ := List.append_eq_nil.mp h6.symm
        subst h7
        exact Or.inl hu

theorem RoundsFrom.le_round {r : ℕ} {tr : List Ev} (h : RoundsFrom r tr) :
    ∀ e ∈ tr, r ≤ e.round := by
  induction h with
  | nil => intro e he; cases he
  | cons hseg _ ih =>
    intro e he
    rcases List.mem_append.mp he with h1 | h2
    · exact (hseg.rounds e h1).ge
    · exact Nat.le_of_succ_le (ih e h2)

theorem RoundShape.no_draw_insert {r : ℕ} {seg : List Ev}
    (hs : RoundShape r seg) {x y : Ev} (hx : x.isDraw = true)
    (hy : y.isInsert = true) : ¬ List.Sublist [x, y] seg := by
  intro hsl
  obtain ⟨xs, ys, rfl, hnd, hni⟩ := hs.split
  rcases sublist_pair_append hsl with h1 | h2 | ⟨h3, h4⟩
  · have : x ∈ xs := h1.subset (by simp)
    rw [hnd x this] at hx; cases hx
  · have : y ∈ ys := h2.subset (by simp)
    rw [hni y this] at hy; cases hy
  · rw [hnd x h3] at hx; cases hx

theorem RoundShape.no_insert_draw_insert {r : ℕ} {seg : List Ev}
    (hs : RoundShape r seg) {x y z : Ev} (hx : x.isInsert = true)
    (hy : y.isDraw = true) (hz : z.isInsert = true) :
    ¬ List.Sublist [x, y, z] seg := by
  intro hsl
  obtain ⟨xs, ys, rfl, hnd, hni⟩ := hs.split
  rcases sublist_triple_append hsl with h1 | h2 | ⟨h3, h4⟩ | ⟨h5, h6⟩
  · have : y ∈ xs := h1.subset (by simp)
    rw [hnd y this] at hy; cases hy
  · have : x ∈ ys := h2.subset (by simp)
    rw [hni x this] at hx; cases hx
  · have : z ∈ ys := h4.subset (by simp)
    rw [hni z this] at hz; cases hz
  · have : y ∈ xs := h5.subset (by simp)
    rw [hnd y this] at hy; cases hy

/-- In a round-structured trace no replay draw of a round precedes an
insertion of the same round. -/
theorem RoundsFrom.no_draw_before_insert {r : ℕ} {tr : List Ev}
    (h : RoundsFrom r tr) (t s a : ℕ) :
    ¬ List.Sublist [Ev.draw t s, Ev.insert t a] tr := by
  induction h with
  | nil => intro hsl; cases (List.sublist_nil.mp hsl)
  | cons hseg hrest ih =>
    intro hsl
    rcases sublist_pair_append hsl with h1 | h2 | ⟨h3, h4⟩
    · exact @RoundShape.no_draw_insert _ _ hseg (Ev.draw t s)
        (Ev.insert t a) rfl rfl h1
    · exact ih h2
    · have ht1 := hseg.rounds _ h3
      have ht2 := hrest.le_round _ h4
      simp only [Ev.round] at ht1 ht2
      omega

/-- In a round-structured trace no replay draw falls between two
insertions of the same round's fresh batch. -/
theorem RoundsFrom.no_draw_between_inserts {r : ℕ} {tr : List Ev}
    (h : RoundsFrom r tr) (t a b t2 s : ℕ) :
    ¬ List.Sublist [Ev.insert t a, Ev.draw t2 s, Ev.insert t b] tr := by
  induction h with
  | nil => intro hsl; cases (List.sublist_nil.mp hsl)
  | cons hseg hrest ih =>
    intro hsl
    rcases sublist_triple_append hsl with h1 | h2 | ⟨h3, h4⟩ | ⟨h5, h6⟩
    · exact @RoundShape.no_insert_draw_insert _ _ hseg (Ev.insert t a)
        (Ev.draw t2 s) (Ev.insert t b) rfl rfl rfl h1
    · exact ih h2
    · have ht1 := hseg.rounds _ h3
      have ht2 := hrest.le_round (Ev.insert t b) (h4.subset (by simp))
      simp only [Ev.round] at ht1 ht2
      omega
    · have ht1 := hseg.rounds (Ev.insert t a)
        (h5.subset (List.mem_cons_self _ _))
      have ht2 := hrest.le_round _ h6
      simp only [Ev.round] at ht1 ht2
      omega

theorem NAF_roundShape (r c tbs : ℕ) :
    RoundShape r (NAFTrainer.round_trace r c tbs) := by
  constructor
  · refine ⟨Ev.sample r c :: (List.range c).map (Ev.insert r),
      (List.range c).flatMap (fun _ => [Ev.draw r tbs, Ev.learnOff r]),
      rfl, ?_, ?_⟩
    · intro e he
      rcases List.mem_cons.mp he with rfl | hm
      · rfl
      · rcases List.mem_map.mp hm with ⟨i, _, rfl⟩
        rfl
    · intro e he
      rcases List.mem_flatMap.mp he with ⟨i, _, hm⟩
      rcases List.mem_cons.mp hm with rfl | hm2
      · rfl
      · rcases List.mem_cons.mp hm2 with rfl | hm3
        · rfl
        · cases hm3
  · intro e he
    unfold NAFTrainer.round_trace at he
    rcases List.mem_cons.mp he with rfl | hm
    · rfl
    rcases List.mem_append.mp hm with h1 | h2
    · rcases List.mem_map.mp h1 with ⟨i, _, rfl⟩
      rfl
    · rcases List.mem_flatMap.mp h2 with ⟨i, _, hmm⟩
      rcases List.mem_cons.mp hmm with rfl | hm2
      · rfl
      · rcases List.mem_cons.mp hm2 with rfl | hm3
        · rfl
        · cases hm3

theorem SVGOne_roundShape (r c tbs : ℕ) :
    RoundShape r (SVGOneTrainer.round_trace r c tbs) := by
  constructor
  · refine ⟨Ev.sample r c :: ((List.range c).map (Ev.insert r)
        ++ [Ev.updateOldPolicy r]),
      (List.range c).flatMap (fun _ => [Ev.draw r tbs, Ev.learnOff r])
        ++ [Ev.updateKl r], ?_, ?_, ?_⟩
    · simp [SVGOneTrainer.round_trace]
    · intro e he
      rcases List.mem_cons.mp he with rfl | hm
      · rfl
      rcases List.mem_append.mp hm with h1 | h2
      · rcases List.mem_map.mp h1 with ⟨i, _, rfl⟩
        rfl
      · obtain rfl := List.mem_singleton.mp h2
        rfl
    · intro e he
      rcases List.mem_append.mp he with h1 | h2
      · rcases List.mem_flatMap.mp h1 with ⟨i, _, hm⟩
        rcases List.mem_cons.mp hm with rfl | hm2
        · rfl
        rcases List.mem_cons.mp hm2 with rfl | hm3
        · rfl
        · cases hm3
      · obtain rfl := List.mem_singleton.mp h2
        rfl
  · intro e he
    unfold SVGOneTrainer.round_trace at he
    rcases List.mem_cons.mp he with rfl | hm
    · rfl
    rcases List.mem_append.mp hm with h1 | h2
    · rcases List.mem_append.mp h1 with h3 | h4
      · rcases List.mem_append.mp h3 with h5 | h6
        · rcases List.mem_map.mp h5 with ⟨i, _, rfl⟩
          rfl
        · obtain rfl := List.mem_singleton.mp h6
          rfl
      · rcases List.mem_flatMap.mp h4 with ⟨i, _, hmm⟩
        rcases List.mem_cons.mp hmm with rfl | hm2
        · rfl
        rcases List.mem_cons.mp hm2 with rfl | hm3
        · rfl
        · cases hm3
    · obtain rfl := List.mem_singleton.mp h2
      rfl

theorem SVGInfAgent_roundShape (r c tbs : ℕ) (ups : ℚ) :
    RoundShape r (SVGInfAgentTrainer.train_trace r c ups tbs) := by
  constructor
  · refine ⟨Ev.sample r c :: (List.range c).map (Ev.insert r),
      (List.range (pyInt (c * ups)).toNat).flatMap
          (fun _ => [Ev.draw r tbs, Ev.learnOff r])
        ++ [Ev.learnOn r], ?_, ?_, ?_⟩
    · simp [SVGInfAgentTrainer.train_trace]
    · intro e he
      rcases List.mem_cons.mp he with rfl | hm
      · rfl
      rcases List.mem_map.mp hm with ⟨i, _, rfl⟩
      rfl
    · intro e he
      rcases List.mem_append.mp he with h1 | h2
      · rcases List.mem_flatMap.mp h1 with ⟨i, _, hm⟩
        rcases List.mem_cons.mp hm with rfl | hm2
        · rfl
        rcases List.mem_cons.mp hm2 with rfl | hm3
        · rfl
        · cases hm3
      · obtain rfl := List.mem_singleton.mp h2
        rfl
  · intro e he
    unfold SVGInfAgentTrainer.train_trace at he
    rcases List.mem_cons.mp he with rfl | hm
    · rfl
    rcases List.mem_append.mp hm with h1 | h2
    · rcases List.mem_append.mp h1 with h3 | h4
      · rcases List.mem_map.mp h3 with ⟨i, _, rfl⟩
        rfl
      · rcases List.mem_flatMap.mp h4 with ⟨i, _, hmm⟩
        rcases List.mem_cons.mp hmm with rfl | hm2
        · rfl
        rcases List.mem_cons.mp hm2 with rfl | hm3
        · rfl
        · cases hm3
    · obtain rfl := List.mem_singleton.mp h2
      rfl

theorem SVGInfAlg_roundShape (r c tbs : ℕ) :
    RoundShape r (SVGInfTrainer.train_trace r c tbs) := by
  constructor
  · refine ⟨Ev.sample r c :: (List.range c).map (Ev.insert r),
      (List.range c).flatMap (fun _ => [Ev.draw r tbs, Ev.learnOff r])
        ++ [Ev.learnOn r], ?_, ?_, ?_⟩
    · simp [SVGInfTrainer.train_trace]
    · intro e he
      rcases List.mem_cons.mp he with rfl | hm
      · rfl
      rcases List.mem_map.mp hm with ⟨i, _, rfl⟩
      rfl
    · intro e he
      rcases List.mem_append.mp he with h1 | h2
      · rcases List.mem_flatMap.mp h1 with ⟨i, _, hm⟩
        rcases List.mem_cons.mp hm with rfl | hm2
        · rfl
        rcases List.mem_cons.mp hm2 with rfl | hm3
        · rfl
        · cases hm3
      · obtain rfl := List.mem_singleton.mp h2
        rfl
  · intro e he
    unfold SVGInfTrainer.train_trace at he
    rcases List.mem_cons.mp he with rfl | hm
    · rfl
    rcases List.mem_append.mp hm with h1 | h2
    · rcases List.mem_append.mp h1 with h3 | h4
      · rcases List.mem_map.mp h3 with ⟨i, _, rfl⟩
        rfl
      · rcases List.mem_flatMap.mp h4 with ⟨i, _, hmm⟩
        rcases List.mem_cons.mp hmm with rfl | hm2
        · rfl
        rcases List.mem_cons.mp hm2 with rfl | hm3
        · rfl
        · cases hm3
    · obtain rfl := List.mem_singleton.mp h2
      rfl

theorem NAF_roundsFrom (r0 : ℕ) (counts : List ℕ) (tbs : ℕ) :
    RoundsFrom r0 (NAFTrainer.train_trace_from r0 counts tbs) := by
  induction counts generalizing r0 with
  | nil => exact RoundsFrom.nil r0
  | cons c cs ih =>
    exact RoundsFrom.cons (NAF_roundShape r0 c tbs) (ih (r0 + 1))

theorem SVGOne_roundsFrom (r0 : ℕ) (counts : List ℕ) (tbs : ℕ) :
    RoundsFrom r0 (SVGOneTrainer.train_trace_from r0 counts tbs) := by
  induction counts generalizing r0 with
  | nil => exact RoundsFrom.nil r0
  | cons c cs ih =>
    exact RoundsFrom.cons (SVGOne_roundShape r0 c tbs) (ih (r0 + 1))

theorem SVGInfAgent_roundsFrom (r c tbs : ℕ) (ups : ℚ) :
    RoundsFrom r (SVGInfAgentTrainer.train_trace r c ups tbs) := by
  have h := RoundsFrom.cons (SVGInfAgent_roundShape r c tbs ups)
    (RoundsFrom.nil (r + 1))
  rwa [List.append_nil] at h

theorem SVGInfAlg_roundsFrom (r c tbs : ℕ) :
    RoundsFrom r (SVGInfTrainer.train_trace r c tbs) := by
  have h := RoundsFrom.cons (SVGInfAlg_roundShape r c tbs)
    (RoundsFrom.nil (r + 1))
  rwa [List.append_nil] at h

/-- C8: in every training iteration of the SVG(1), SVG(inf) (both the
agents-path and the algorithms-path implementations) and NAF trainers,
every transition of the freshly sampled batch is inserted into the
replay buffer before any off-policy minibatch of that iteration is
drawn (no draw of a round precedes an insert of the same round), and no
replay draw occurs between two insertions of the same freshly sampled
batch. -/
theorem C8_sample_precedes_offpolicy (r0 c tbs : ℕ) (counts : List ℕ)
    (ups : ℚ) :
    (¬ ∃ t s a, List.Sublist [Ev.draw t s, Ev.insert t a]
        (NAFTrainer.train_trace_from r0 counts tbs))
  ∧ (¬ ∃ t a t2 s b, List.Sublist
        [Ev.insert t a, Ev.draw t2 s, Ev.insert t b]
        (NAFTrainer.train_trace_from r0 counts tbs))
  ∧ (¬ ∃ t s a, List.Sublist [Ev.draw t s, Ev.insert t a]
        (SVGOneTrainer.train_trace_from r0 counts tbs))
  ∧ (¬ ∃ t a t2 s b, List.Sublist
        [Ev.insert t a, Ev.draw t2 s, Ev.insert t b]
        (SVGOneTrainer.train_trace_from r0 counts tbs))
  ∧ (¬ ∃ t s a, List.Sublist [Ev.draw t s, Ev.insert t a]
        (SVGInfAgentTrainer.train_trace r0 c ups tbs))
  ∧ (¬ ∃ t a t2 s b, List.Sublist
        [Ev.insert t a, Ev.draw t2 s, Ev.insert t b]
        (SVGInfAgentTrainer.train_trace r0 c ups tbs))
  ∧ (¬ ∃ t s a, List.Sublist [Ev.draw t s, Ev.insert t a]
        (SVGInfTrainer.train_trace r0 c tbs))
  ∧ (¬ ∃ t a t2 s b, List.Sublist
        [Ev.insert t a, Ev.draw t2 s, Ev.insert t b]
        (SVGInfTrainer.train_trace r0 c tbs)) := by
  refine ⟨?_, ?_, ?_, ?_, ?_, ?_, ?_, ?_⟩
  · rintro ⟨t, s, a, hsl⟩
    exact (NAF_roundsFrom r0 counts tbs).no_draw_before_insert t s a hsl
  · rintro ⟨t, a, t2, s, b, hsl⟩
    exact (NAF_roundsFrom r0 counts tbs).no_draw_between_inserts
      t a b t2 s hsl
  · rintro ⟨t, s, a, hsl⟩
    exact (SVGOne_roundsFrom r0 counts tbs).no_draw_before_insert t s a hsl
  · rintro ⟨t, a, t2, s, b, hsl⟩
    exact (SVGOne_roundsFrom r0 counts tbs).no_draw_between_inserts
      t a b t2 s hsl
  · rintro ⟨t, s, a, hsl⟩
    exact (SVGInfAgent_roundsFrom r0 c tbs ups).no_draw_before_insert
      t s a hsl
  · rintro ⟨t, a, t2, s, b, hsl⟩
    exact (SVGInfAgent_roundsFrom r0 c tbs ups).no_draw_between_inserts
      t a b t2 s hsl
  · rintro ⟨t, s, a, hsl⟩
    exact (SVGInfAlg_roundsFrom r0 c tbs).no_draw_before_insert t s a hsl
  · rintro ⟨t, a, t2, s, b, hsl⟩
    exact (SVGInfAlg_roundsFrom r0 c tbs).no_draw_between_inserts
      t a b t2 s hsl

/-- C2: under the `"SF"` estimator the next state is drawn with the plain
(non-reparameterized) model sample — the drawn next state is the detached
reparameterized draw, all its gradients zero — and the surrogate is
`log_prob(next_state) * detached(next_value)`, whose action gradient is
the score-function form `next_value.val * d log_prob`; under `"PD"` the
next state is the reparameterized draw (gradients intact) and the
surrogate is the bootstrapped next value itself, built directly on the
un-detached drawn next state. -/
theorem C2_estimator_branches {A : ℕ} (sp : SPAML A) (m : ModelNet A)
    (obs act : List (D A)) (mn pn : ℚ) (rw : SmoothFn)
    (tm : List ℚ → List ℚ → List ℚ → Bool) :
    (sp.grad_estimator = "SF" →
      sp.transition_one m obs act mn = Except.ok (m.sample obs act mn)
      ∧ (m.sample obs act mn).1 = (m.draw obs act mn).map D.detach
      ∧ (∀ x ∈ (m.sample obs act mn).1,
           x.dAct = (fun _ => 0) ∧ x.dPol = 0 ∧ x.dMod = 0)
      ∧ ∃ next_vval, sp.one_step_surrogate_one rw tm m obs act mn pn
            = Except.ok
              (D.mul (m.sample obs act mn).2 (D.detach next_vval), true)
          ∧ (D.mul (m.sample obs act mn).2 (D.detach next_vval)).val
              = (m.sample obs act mn).2.val * next_vval.val
          ∧ (D.mul (m.sample obs act mn).2 (D.detach next_vval)).dAct
              = fun k => (m.sample obs act mn).2.dAct k * next_vval.val)
  ∧ (sp.grad_estimator = "PD" →
      sp.transition_one m obs act mn = Except.ok (m.rsample obs act mn)
      ∧ (m.rsample obs act mn).1 = m.draw obs act mn
      ∧ sp.one_step_surrogate_one rw tm m obs act mn pn
          = Except.ok (
              D.sub (sp.bootstrapped_value
                  (tm (obs.map D.val) (act.map D.val)
                    ((m.draw obs act mn).map D.val))
                  (rw.applyD (obs ++ act ++ m.draw obs act mn))
                  (clipped_action_value (m.draw obs act mn)
                    (sp.resample_next_action (m.draw obs act mn) pn).1.1
                    sp.critics))
                (D.smul sp.alpha
                  (sp.resample_next_action (m.draw obs act mn) pn).1.2),
              true)) := by
  constructor
  · intro h
    refine ⟨?_, rfl, ?_, ?_⟩
    · rw [SPAML.transition_one, h]
      rfl
    · intro x hx
      rcases List.mem_map.mp hx with ⟨y, _, rfl⟩
      exact ⟨rfl, rfl, rfl⟩
    · refine ⟨D.sub (sp.bootstrapped_value
          (tm (obs.map D.val) (act.map D.val)
            ((m.sample obs act mn).1.map D.val))
          (rw.applyD (obs ++ act ++ (m.sample obs act mn).1))
          (clipped_action_value (m.sample obs act mn).1
            (sp.resample_next_action (m.sample obs act mn).1 pn).1.1
            sp.critics))
        (D.smul sp.alpha
          (sp.resample_next_action (m.sample obs act mn).1 pn).1.2),
        ?_, rfl, ?_⟩
      · rw [SPAML.one_step_surrogate_one, SPAML.transition_one, h]
        rfl
      · funext k
        simp [D.mul, D.detach, D.const]
  · intro h
    have hne : ¬ (sp.grad_estimator = "SF") := by rw [h]; decide
    refine ⟨?_, rfl, ?_⟩
    · rw [SPAML.transition_one, if_neg hne, if_pos h]
    · rw [SPAML.one_step_surrogate_one, SPAML.transition_one, if_neg hne,
        if_pos h, h]
      rfl

/-- Witness for C2: branch selection evaluated on the concrete loss in
both estimator modes. -/
theorem C2_branches_witness :
    SPAML.transition_one exSPAML exModel [D.const 0] [D.const 0] 0
      = Except.ok (exModel.sample [D.const 0] [D.const 0] 0)
  ∧ SPAML.transition_one { exSPAML with grad_estimator := "PD" } exModel
      [D.const 0] [D.const 0] 0
      = Except.ok (exModel.rsample [D.const 0] [D.const 0] 0) :=
  ⟨((C2_estimator_branches exSPAML exModel [D.const 0] [D.const 0] 0 0
      sumFn exTerm).1 rfl).1,
   ((C2_estimator_branches { exSPAML with grad_estimator := "PD" } exModel
      [D.const 0] [D.const 0] 0 0 sumFn exTerm).2 rfl).1⟩

theorem D.tWhere_dPol_zero {A : ℕ} (c : Bool) {x y : D A}
    (hx : x.dPol = 0) (hy : y.dPol = 0) : (D.tWhere c x y).dPol = 0 := by
  cases c <;> simp [D.tWhere, hx, hy]

theorem D.tMin_dPol_zero {A : ℕ} {x y : D A}
    (hx : x.dPol = 0) (hy : y.dPol = 0) : (D.tMin x y).dPol = 0 := by
  unfold D.tMin
  split <;> assumption

theorem foldl_tMin_dPol_zero {A : ℕ} (l : List (D A)) (init : D A)
    (hinit : init.dPol = 0) (hl : ∀ x ∈ l, x.dPol = 0) :
    (l.foldl D.tMin init).dPol = 0 := by
  induction l generalizing init with
  | nil => exact hinit
  | cons x xs ih =>
    exact ih _ (D.tMin_dPol_zero hinit (hl x (by simp)))
      (fun y hy => hl y (by simp [hy]))

theorem clipped_action_value_dPol_zero {A : ℕ} (obs act : List (D A))
    (critics : List (CriticNet A)) (ho : ∀ x ∈ obs, x.dPol = 0)
    (ha : ∀ x ∈ act, x.dPol = 0) :
    (clipped_action_value obs act critics).dPol = 0 := by
  have happly : ∀ c : CriticNet A, (c.q.applyD (obs ++ act)).dPol = 0 := by
    intro c
    apply SmoothFn.applyD_dPol_zero
    intro x hx
    rcases List.mem_append.mp hx with h1 | h2
    · exact ho x h1
    · exact ha x h2
  unfold clipped_action_value
  cases critics with
  | nil => rfl
  | cons c cs =>
    rw [List.map_cons]
    exact foldl_tMin_dPol_zero _ _ (happly c) (by
      intro x hx
      rcases List.mem_map.mp hx with ⟨c2, _, rfl⟩
      exact happly c2)

theorem ModelNet.draw_dPol_zero {A : ℕ} (m : ModelNet A)
    (obs act : List (D A)) (ν : ℚ) (ho : ∀ x ∈ obs, x.dPol = 0)
    (ha : ∀ x ∈ act, x.dPol = 0) :
    ∀ x ∈ m.draw obs act ν, x.dPol = 0 := by
  intro x hx
  rcases List.mem_map.mp hx with ⟨F, _, rfl⟩
  apply SmoothFn.applyD_dPol_zero
  intro y hy
  rcases List.mem_cons.mp hy with rfl | hy2
  · rfl
  rcases List.mem_cons.mp hy2 with rfl | hy3
  · rfl
  rcases List.mem_append.mp hy3 with h1 | h2
  · exact ho y h1
  · exact ha y h2

theorem ModelNet.log_prob_dPol_zero {A : ℕ} (m : ModelNet A)
    (obs act nxt : List (D A)) (ho : ∀ x ∈ obs, x.dPol = 0)
    (ha : ∀ x ∈ act, x.dPol = 0) (hn : ∀ x ∈ nxt, x.dPol = 0) :
    (m.log_prob obs act nxt).dPol = 0 := by
  apply SmoothFn.applyD_dPol_zero
  intro y hy
  rcases List.mem_cons.mp hy with rfl | hy2
  · rfl
  rcases List.mem_append.mp hy2 with h1 | h2
  · rcases List.mem_append.mp h1 with h3 | h4
    · exact ho y h3
    · exact ha y h4
  · exact hn y h2

theorem PolicyNet.rsample_false_dPol_zero {A : ℕ} (p : PolicyNet A)
    (obs : List (D A)) (ν : ℚ) (ho : ∀ x ∈ obs, x.dPol = 0) :
    (∀ a2 ∈ (p.rsample false obs ν).1, a2.dPol = 0)
  ∧ ((p.rsample false obs ν).2).dPol = 0 := by
  have hdraw : ∀ a2 ∈ p.drawF.map
      (fun F => F.applyD (p.paramD false :: D.const ν :: obs)),
      a2.dPol = 0 := by
    intro a2 ha2
    rcases List.mem_map.mp ha2 with ⟨F, _, rfl⟩
    apply SmoothFn.applyD_dPol_zero
    intro y hy
    rcases List.mem_cons.mp hy with rfl | hy2
    · rfl
    rcases List.mem_cons.mp hy2 with rfl | hy3
    · rfl
    · exact ho y hy3
  constructor
  · exact hdraw
  · apply SmoothFn.applyD_dPol_zero
    intro y hy
    rcases List.mem_cons.mp hy with rfl | hy2
    · rfl
    rcases List.mem_append.mp hy2 with h1 | h2
    · exact ho y h1
    · exact hdraw y h2

/-- Evaluation of the surrogate under `"SF"`: explicit result form. -/
theorem surrogate_one_SF_eq {A : ℕ} (sp : SPAML A)
    (h : sp.grad_estimator = "SF") (rw : SmoothFn)
    (tm : List ℚ → List ℚ → List ℚ → Bool) (m : ModelNet A)
    (obs act : List (D A)) (mn pn : ℚ) :
    sp.one_step_surrogate_one rw tm m obs act mn pn = Except.ok
      (D.mul (m.sample obs act mn).2 (D.detach (D.sub
        (sp.bootstrapped_value
          (tm (obs.map D.val) (act.map D.val)
            ((m.sample obs act mn).1.map D.val))
          (rw.applyD (obs ++ act ++ (m.sample obs act mn).1))
          (clipped_action_value (m.sample obs act mn).1
            (sp.resample_next_action (m.sample obs act mn).1 pn).1.1
            sp.critics))
        (D.smul sp.alpha
          (sp.resample_next_action (m.sample obs act mn).1 pn).1.2))),
      true) := by
  rw [SPAML.one_step_surrogate_one, SPAML.transition_one, h]
  rfl

/-- Evaluation of the surrogate under `"PD"`: explicit result form. -/
theorem surrogate_one_PD_eq {A : ℕ} (sp : SPAML A)
    (h : sp.grad_estimator = "PD") (rw : SmoothFn)
    (tm : List ℚ → List ℚ → List ℚ → Bool) (m : ModelNet A)
    (obs act : List (D A)) (mn pn : ℚ) :
    sp.one_step_surrogate_one rw tm m obs act mn pn = Except.ok
      (D.sub
        (sp.bootstrapped_value
          (tm (obs.map D.val) (act.map D.val)
            ((m.draw obs act mn).map D.val))
          (rw.applyD (obs ++ act ++ m.draw obs act mn))
          (clipped_action_value (m.draw obs act mn)
            (sp.resample_next_action (m.draw obs act mn) pn).1.1
            sp.critics))
        (D.smul sp.alpha
          (sp.resample_next_action (m.draw obs act mn) pn).1.2),
      true) := by
  rw [SPAML.one_step_surrogate_one, SPAML.transition_one, h]
  rfl

/-- C7: the next action in `one_step_action_value_surrogate` is resampled
with the policy parameters' `requires_grad` disabled, so neither the
resampled action nor its log-density — nor, consequently, the surrogate
value itself — carries any policy-parameter gradient, and the flag
reported after the block (and after any successful surrogate call) is
restored to enabled; meanwhile gradient flow into the current action and
into the model parameters remains possible, witnessed by a concrete
instance whose surrogate has nonzero action and model gradients. -/
theorem C7_next_action_no_policy_grad {A : ℕ} (sp : SPAML A)
    (rw : SmoothFn) (tm : List ℚ → List ℚ → List ℚ → Bool)
    (m : ModelNet A) (obs act : List (D A)) (mn pn : ℚ)
    (hobs : ∀ x ∈ obs, x.dPol = 0) (hact : ∀ x ∈ act, x.dPol = 0) :
    (∀ (nxt : List (D A)) (ν : ℚ), (∀ x ∈ nxt, x.dPol = 0) →
        (∀ a2 ∈ (sp.resample_next_action nxt ν).1.1, a2.dPol = 0)
      ∧ ((sp.resample_next_action nxt ν).1.2).dPol = 0
      ∧ (sp.resample_next_action nxt ν).2 = true)
  ∧ (∀ s flag, sp.one_step_surrogate_one rw tm m obs act mn pn
        = Except.ok (s, flag) → flag = true ∧ s.dPol = 0)
  ∧ (∃ (sp2 : SPAML 1) (rw2 : SmoothFn)
        (tm2 : List ℚ → List ℚ → List ℚ → Bool) (m2 : ModelNet 1)
        (obs2 act2 : List (D 1)) (s2 : D 1),
      SPAML.one_step_surrogate_one sp2 rw2 tm2 m2 obs2 act2 0 0
        = Except.ok (s2, true)
      ∧ s2.dPol = 0 ∧ s2.dAct 0 ≠ 0 ∧ s2.dMod ≠ 0) := by
  refine ⟨?_, ?_, ?_⟩
  · intro nxt ν hn
    obtain ⟨h1, h2⟩ := sp.policy.rsample_false_dPol_zero nxt ν hn
    exact ⟨h1, h2, rfl⟩
  · intro s flag hok
    by_cases hSF : sp.grad_estimator = "SF"
    · rw [surrogate_one_SF_eq sp hSF rw tm m obs act mn pn] at hok
      injection hok with h1
      injection h1 with hs hf
      refine ⟨hf.symm, ?_⟩
      rw [← hs]
      have hlp : ((m.sample obs act mn).2).dPol = 0 := by
        apply ModelNet.log_prob_dPol_zero m obs act _ hobs hact
        intro x hx
        rcases List.mem_map.mp hx with ⟨y, _, rfl⟩
        rfl
      simp [D.mul, D.detach, D.const, hlp]
    · by_cases hPD : sp.grad_estimator = "PD"
      · rw [surrogate_one_PD_eq sp hPD rw tm m obs act mn pn] at hok
        injection hok with h1
        injection h1 with hs hf
        refine ⟨hf.symm, ?_⟩
        rw [← hs]
        simp only [SPAML.resample_next_action]
        have hdr : ∀ x ∈ m.draw obs act mn, x.dPol = 0 :=
          ModelNet.draw_dPol_zero m obs act mn hobs hact
        obtain ⟨hact2, hlogp⟩ :=
          sp.policy.rsample_false_dPol_zero (m.draw obs act mn) pn hdr
        have hq : (clipped_action_value (m.draw obs act mn)
            (sp.policy.rsample false (m.draw obs act mn) pn).1
            sp.critics).dPol = 0 :=
          clipped_action_value_dPol_zero _ _ _ hdr hact2
        have hrw : (rw.applyD (obs ++ act ++ m.draw obs act mn)).dPol
            = 0 := by
          apply SmoothFn.applyD_dPol_zero
          intro y hy
          rcases List.mem_append.mp hy with h1 | h2
          · rcases List.mem_append.mp h1 with h3 | h4
            · exact hobs y h3
            · exact hact y h4
          · exact hdr y h2
        have hrw2 : (rw.applyD (obs ++ (act ++ m.draw obs act mn))).dPol
            = 0 := by
          rw [← List.append_assoc]
          exact hrw
        have hboot : (sp.bootstrapped_value
            (tm (obs.map D.val) (act.map D.val)
              ((m.draw obs act mn).map D.val))
            (rw.applyD (obs ++ (act ++ m.draw obs act mn)))
            (clipped_action_value (m.draw obs act mn)
              (sp.policy.rsample false (m.draw obs act mn) pn).1
              sp.critics)).dPol = 0 := by
          apply D.tWhere_dPol_zero _ hrw2
          simp [D.add, D.smul, hrw2, hq]
        simp [D.sub, D.smul, hboot, hlogp, hrw, hrw2, hq]
      · have hok2 : Except.error (PyErr.unboundLocalError "model_outputs")
            = Except.ok (s, flag) := by
          rw [← hok, SPAML.one_step_surrogate_one, SPAML.transition_one,
            if_neg hSF, if_neg hPD]
          rfl
        simp at hok2
  · have heq := surrogate_one_PD_eq
      { exSPAML with grad_estimator := "PD" } rfl sumFn exTerm exModel
      [D.const 0] [D.actLeaf 0 0] 0 0
    refine ⟨{ exSPAML with grad_estimator := "PD" }, sumFn, exTerm,
      exModel, [D.const 0], [D.actLeaf 0 0], _, heq, ?_, ?_, ?_⟩
    · norm_num [SPAML.bootstrapped_value, SPAML.resample_next_action,
        PolicyNet.rsample, PolicyNet.paramD, ModelNet.draw,
        ModelNet.paramD, clipped_action_value, SmoothFn.applyD, dotQ,
        sumFn, exModel, exPolicy, exCritic, exSPAML, exTerm, SPAML.init,
        D.sub, D.add, D.smul, D.tWhere, D.tMin, D.const, D.actLeaf]
    · norm_num [SPAML.bootstrapped_value, SPAML.resample_next_action,
        PolicyNet.rsample, PolicyNet.paramD, ModelNet.draw,
        ModelNet.paramD, clipped_action_value, SmoothFn.applyD, dotQ,
        sumFn, exModel, exPolicy, exCritic, exSPAML, exTerm, SPAML.init,
        D.sub, D.add, D.smul, D.tWhere, D.tMin, D.const, D.actLeaf]
    · norm_num [SPAML.bootstrapped_value, SPAML.resample_next_action,
        PolicyNet.rsample, PolicyNet.paramD, ModelNet.draw,
        ModelNet.paramD, clipped_action_value, SmoothFn.applyD, dotQ,
        sumFn, exModel, exPolicy, exCritic, exSPAML, exTerm, SPAML.init,
        D.sub, D.add, D.smul, D.tWhere, D.tMin, D.const, D.actLeaf]

/-- Witness for C7: the next-action block at concrete inputs reports the
restored flag and a zero policy-parameter gradient on the log-density. -/
theorem C7_flag_witness :
    (SPAML.resample_next_action exSPAML [D.const 0] 0).2 = true
  ∧ ((SPAML.resample_next_action exSPAML [D.const 0] 0).1.2).dPol = 0 := by
  have hz : ∀ x ∈ [(D.const 0 : D 1)], x.dPol = 0 := by
    intro x hx
    obtain rfl := List.mem_singleton.mp hx
    rfl
  have ha : ∀ x ∈ [(D.actLeaf 0 0 : D 1)], x.dPol = 0 := by
    intro x hx
    obtain rfl := List.mem_singleton.mp hx
    rfl
  have h := C7_next_action_no_policy_grad exSPAML sumFn exTerm exModel
    [D.const 0] [D.actLeaf 0 0] 0 0 hz ha
  obtain ⟨_, h2, h3⟩ := h.1 [D.const 0] 0 hz
  exact ⟨h3, h2⟩

theorem action_gradient_loss_eq {A : ℕ} (t p : List (D A)) :
    SPAML.action_gradient_loss t p
      = listMean ((List.zipWith D.sub t p).map
          (fun td => ∑ k, |td.dAct k|)) := by
  unfold SPAML.action_gradient_loss
  simp only [List.map_map]
  rfl

/-- C1: for every batch the per-model loss returned by `SPAML.__call__`
equals `G + lambda_ * MLE`, where `G` is the per-model action-gradient
loss — the per-batch-element difference `target - surrogate`,
batch-summed and differentiated with respect to the sampled action (per
element, its `dAct`), the absolute gradient summed over the action
dimension and averaged over the batch — and `MLE` is the per-model
maximum-likelihood loss. -/
theorem C1_call_loss_decomposition {A : ℕ} (sp : SPAML A)
    (batch : List BatchElem) (av : ℕ → ℕ → Fin A → ℚ)
    (mn pn : ℕ → ℕ → ℚ) (rw : SmoothFn)
    (tm : List ℚ → List ℚ → List ℚ → Bool)
    (hr : sp.env.reward = some rw) (ht : sp.env.termination = some tm)
    (hge : sp.grad_estimator = "SF" ∨ sp.grad_estimator = "PD") :
    ∃ preds info,
      sp.one_step_action_value_surrogate rw tm batch av mn pn
        = Except.ok (preds, true)
    ∧ sp.call batch av mn pn = Except.ok
        (List.zipWith (fun G M => G + sp.lambda_ * M)
          (List.zipWith
            (fun target pred =>
              listMean ((List.zipWith D.sub target pred).map
                (fun td => ∑ k, |td.dAct k|)))
            (sp.models.enum.map (fun im => batch.enum.map (fun be =>
              sp.zero_step_action_value (be.2.cur_obs.map D.const)
                (SPAML.generate_action (av im.1 be.1)))))
            preds)
          (sp.maximum_likelihood_loss batch), info) := by
  have hfun : SPAML.action_gradient_loss (A := A)
      = fun target pred =>
          listMean ((List.zipWith D.sub target pred).map
            (fun td => ∑ k, |td.dAct k|)) := by
    funext t p
    exact action_gradient_loss_eq t p
  have hone : ∀ im ∈ sp.models.enum, ∃ bs,
      batch.enum.mapM (fun be =>
        (sp.one_step_surrogate_one rw tm im.2
          (be.2.cur_obs.map D.const)
          (SPAML.generate_action (av im.1 be.1)) (mn im.1 be.1)
          (pn im.1 be.1)).map Prod.fst) = Except.ok bs := by
    intro im _
    refine mapM_ok_of_forall _ _ (fun be _ => ?_)
    obtain ⟨out, hout⟩ := surrogate_one_ok sp hge rw tm im.2
      (be.2.cur_obs.map D.const)
      (SPAML.generate_action (av im.1 be.1)) (mn im.1 be.1)
      (pn im.1 be.1)
    exact ⟨out.1, by rw [hout]; rfl⟩
  obtain ⟨preds, hpreds⟩ := mapM_ok_of_forall _ _ hone
  have hsur : sp.one_step_action_value_surrogate rw tm batch av mn pn
      = Except.ok (preds, true) := by
    rw [SPAML.one_step_action_value_surrogate, hpreds]
    rfl
  have hcall2 : ∃ info, sp.call batch av mn pn = Except.ok
      (List.zipWith (fun G M => G + sp.lambda_ * M)
        (List.zipWith SPAML.action_gradient_loss
          (sp.models.enum.map (fun im => batch.enum.map (fun be =>
            sp.zero_step_action_value (be.2.cur_obs.map D.const)
              (SPAML.generate_action (av im.1 be.1)))))
          preds)
        (sp.maximum_likelihood_loss batch), info) := by
    simp only [SPAML.call, hr, ht]
    rw [hsur]
    exact ⟨_, rfl⟩
  obtain ⟨info, hinfo⟩ := hcall2
  rw [hfun] at hinfo
  exact ⟨preds, info, hsur, hinfo⟩

/-- Witness for C1 on the concrete loss with environment functions
attached: the call returns the decomposed per-model losses. -/
theorem C1_loss_witness :
    ∃ preds info,
      SPAML.one_step_action_value_surrogate
          ((exSPAML.set_reward_fn sumFn).set_termination_fn exTerm)
          sumFn exTerm exBatch (fun _ _ _ => 0) (fun _ _ => 0)
          (fun _ _ => 0)
        = Except.ok (preds, true)
    ∧ SPAML.call ((exSPAML.set_reward_fn sumFn).set_termination_fn exTerm)
        exBatch (fun _ _ _ => 0) (fun _ _ => 0) (fun _ _ => 0)
        = Except.ok
        (List.zipWith (fun G M => G
            + ((exSPAML.set_reward_fn sumFn).set_termination_fn
                exTerm).lambda_ * M)
          (List.zipWith
            (fun target pred =>
              listMean ((List.zipWith D.sub target pred).map
                (fun td => ∑ k, |td.dAct k|)))
            (((exSPAML.set_reward_fn sumFn).set_termination_fn
                exTerm).models.enum.map (fun im => exBatch.enum.map
              (fun be => SPAML.zero_step_action_value
                ((exSPAML.set_reward_fn sumFn).set_termination_fn exTerm)
                (be.2.cur_obs.map D.const)
                (SPAML.generate_action ((fun _ _ _ => 0) im.1 be.1)))))
            preds)
          (SPAML.maximum_likelihood_loss
            ((exSPAML.set_reward_fn sumFn).set_termination_fn exTerm)
            exBatch), info) :=
  C1_call_loss_decomposition
    ((exSPAML.set_reward_fn sumFn).set_termination_fn exTerm) exBatch
    (fun _ _ _ => 0) (fun _ _ => 0) (fun _ _ => 0) sumFn exTerm rfl rfl
    (Or.inl rfl)
